import Mathlib

/-!
Verification development for the e-sign envelope server.

The definitions below are a shallow embedding of the multi-signer server
(`server.js`, the variant with an embedded `signers` array) together with its
`sendmail.js` collaborator.  JavaScript strings become `String`, `Date`
values become `Nat` timestamps, `undefined`-able fields become `Option`,
the Mongo collection becomes an association list threaded through the
handlers, and the nondeterministic inputs of the handlers (current time,
generated ids, which template files exist on disk, which mails succeed)
become explicit parameters.  Each HTTP handler is a pure function from its
inputs and the store to the updated store and a response value.
-/

/-- Signer / envelope status enumeration (`SIGN_EVENTS` in `contance.js`). -/
inductive SignStatus where
  | PENDING
  | SENT
  | DELIVERED
  | COMPLETED
  | VOIDED
deriving DecidableEq, Repr

/-- One entry of the envelope's `files` array (`originalFileSchema`). -/
structure FileDesc where
  filename : String
  storedName : String
  publicUrl : String
  mimetype : String
deriving DecidableEq, Repr

/-- One embedded signer (`signerSchema`). -/
structure Signer where
  email : String
  name : String
  status : SignStatus
  sentAt : Option Nat
  deliveredAt : Option Nat
  completedAt : Option Nat
  signedUrl : String
deriving DecidableEq, Repr

/-- The envelope document (`envelopeSchema`). -/
structure Envelope where
  signers : List Signer
  documentStatus : SignStatus
  files : List FileDesc
  pdf : String
  signedPdf : String
  signedUrl : String
deriving DecidableEq, Repr

/-- One parsed recipient, as produced by `parseRecipients`. -/
structure Recipient where
  email : String
  name : String
deriving DecidableEq, Repr

/-! ## JavaScript string primitives used by the handler -/

/-- Model of `String.prototype.trim` (whitespace stripped from both ends). -/
def jsTrim (s : String) : String :=
  String.mk (((s.data.dropWhile Char.isWhitespace).reverse.dropWhile Char.isWhitespace).reverse)

/-- Model of `String.prototype.toLowerCase` on the ASCII range. -/
def jsToLower (s : String) : String :=
  String.mk (s.data.map Char.toLower)

/-- Characters admitted by one `[^\s@]` atom of the handler's `emailRegex`. -/
def isEmailAtomChar (c : Char) : Bool :=
  ¬ c.isWhitespace ∧ c ≠ '@'

/-- Model of `emailRegex.test`, the regex being `/^[^\s@]+@[^\s@]+\.[^\s@]+$/`:
one `@` splitting the string into a nonempty local part and a nonempty domain,
neither containing whitespace or `@`, and the domain containing a dot that is
neither its first nor its last character. -/
def emailRegexTest (s : String) : Bool :=
  let cs := s.data
  let a := cs.takeWhile (fun c => c ≠ '@')
  match cs.dropWhile (fun c => c ≠ '@') with
  | '@' :: b =>
      a ≠ [] ∧ a.all isEmailAtomChar ∧ b ≠ [] ∧ b.all isEmailAtomChar ∧
        ((b.drop 1).dropLast).contains '.'
  | _ => false

/-- Characters the dot of JavaScript regexes does not match (no `s` flag). -/
def isJsDotExcluded (c : Char) : Bool :=
  c = '\n' ∨ c = '\r' ∨ c = ' ' ∨ c = ' '

/-- Splitting engine for `/^(.*)<([^>]+)>$/` applied to the interior of the
string (final `>` already removed): find the rightmost `<` such that the part
after it is nonempty and free of `>`, subject to the group-1 prefix containing
no newline characters (the dot of the regex cannot cross them). -/
def angleSplit : List Char → Option (List Char × List Char)
  | [] => none
  | c :: rest =>
    match angleSplit rest with
    | some (p, seg) => if isJsDotExcluded c then none else some (c :: p, seg)
    | none =>
      if c = '<' ∧ rest ≠ [] ∧ ¬ rest.contains '>' then some ([], rest) else none

/-- Model of `raw.match(/^(.*)<([^>]+)>$/)`, returning the two groups. -/
def matchAngle (s : String) : Option (String × String) :=
  if s.data.getLast? = some '>' then
    (angleSplit s.data.dropLast).map (fun pr => (String.mk pr.1, String.mk pr.2))
  else none

/-- Model of `.replace(/^"|"$/g, "")`: drop one leading and one trailing
double quote. -/
def stripQuotes (s : String) : String :=
  let cs1 := match s.data with
    | '"' :: rest => rest
    | cs => cs
  String.mk (if cs1.getLast? = some '"' then cs1.dropLast else cs1)

/-- Delimiters of the recipient fallback split `/[\n,;]+/`. -/
def isRecipDelim (c : Char) : Bool :=
  c = '\n' ∨ c = ',' ∨ c = ';'

/-- Delimiters of the template fallback split `/[,\s]+/`. -/
def isTplDelim (c : Char) : Bool :=
  c = ',' ∨ c.isWhitespace

/-- Worker for `String.prototype.split` on a `/[...]+/` class regex: maximal
delimiter runs separate tokens, boundary runs contribute empty tokens.  The
second argument is `some acc` while a token is being accumulated and `none`
while inside a delimiter run. -/
def splitRunsGo (p : Char → Bool) : List Char → Option (List Char) → List String
  | [], some acc => [String.mk acc.reverse]
  | [], none => [""]
  | c :: rest, some acc =>
    if p c then String.mk acc.reverse :: splitRunsGo p rest none
    else splitRunsGo p rest (some (c :: acc))
  | c :: rest, none =>
    if p c then splitRunsGo p rest none
    else splitRunsGo p rest (some [c])

/-- Model of `String.prototype.split` with a `/[...]+/` character-class regex. -/
def splitRunsBy (p : Char → Bool) (s : String) : List String :=
  splitRunsGo p s.data (some [])

/-! ## Recipient parsing (`parseRecipients` in the creation handler) -/

/-- One element of a JSON-array recipient input, after `JSON.parse`:
a string, an object whose `email` property is truthy (a nonempty string is
modelled; `email = ""` is the falsy case), or anything else (mapped to
`null` and filtered out by the handler). -/
inductive RecipEntry where
  | str (s : String)
  | objWithEmail (name : String) (email : String)
  | other
deriving DecidableEq, Repr

/-- The recipient input as seen through `JSON.parse`: a JSON array, some
other successfully parsed JSON value, or a string on which `JSON.parse`
throws (the catch branch splits it on `/[\n,;]+/`). -/
inductive RecipInput where
  | jsonArr (entries : List RecipEntry)
  | jsonNonArr
  | badJson (s : String)
deriving DecidableEq, Repr

/-- The `.map(...)` body over a parsed JSON array combined with
`.filter(Boolean)`: strings pass through (empty ones dropped), objects with a
truthy `email` are rendered as `name <email>` with a falsy `name` rendered
empty, everything else is dropped. -/
def entryToRaw : RecipEntry → Option String
  | .str s => if s = "" then none else some s
  | .objWithEmail n e => if e = "" then none else some (n ++ " <" ++ e ++ ">")
  | .other => none

/-- The raw entry list the dedup loop of `parseRecipients` iterates over. -/
def rawList : RecipInput → List String
  | .jsonArr es => es.filterMap entryToRaw
  | .jsonNonArr => []
  | .badJson s => splitRunsBy isRecipDelim s

/-- The per-entry body of the dedup loop: trim, skip empties, split an
optional `Name <email>` wrapper, strip quotes from the name, lowercase the
email and drop it unless it passes `emailRegex`.  Returns `(email, name)`. -/
def processRaw (raw : String) : Option (String × String) :=
  let r := jsTrim raw
  if r = "" then none
  else
    let pr := match matchAngle r with
      | some (g1, g2) => (stripQuotes (jsTrim g1), jsTrim g2)
      | none => ("", r)
    let e := jsToLower pr.2
    if emailRegexTest e then some (e, pr.1) else none

/-- All `(email, name)` pairs extracted from the input, in order, before
deduplication. -/
def processedList (input : RecipInput) : List (String × String) :=
  (rawList input).filterMap processRaw

/-- One step of the `uniq` map insertion: first occurrence of an email wins. -/
def dedupInsert (acc : List Recipient) (p : String × String) : List Recipient :=
  if acc.any (fun r => r.email = p.1) then acc else acc ++ [⟨p.1, p.2⟩]

/-- Model of `parseRecipients`: extract, validate, and deduplicate keeping
insertion order (`Array.from(uniq.values())`). -/
def parseRecipients (input : RecipInput) : List Recipient :=
  (processedList input).foldl dedupInsert []

/-! ## Capability token codec (`jsonwebtoken` usage) -/

/-- Default signing secret (`process.env.JWT_SECRET || "supersecret"`). -/
def JWT_SECRET : String := "supersecret"

/-- Default base URL used to build links. -/
def BASE_URL : String := "https://e-sign-delta.vercel.app"

/-- The claims carried by a token: the three fields the handler signs
(`envId`, `email`, `i`), the legacy `_id` claim of older tokens, and the
timestamps `jsonwebtoken` manages (`iat` always, `exp` only when an
`expiresIn` option is passed to `sign`). -/
structure JwtClaims where
  envId : Option String
  legacyId : Option String
  email : Option String
  i : Option Nat
  iat : Nat
  exp : Option Nat
deriving DecidableEq, Repr

/-- Encoding of an optional string claim into the signature input. -/
def encOpt : Option String → String
  | none => "-"
  | some s => "+" ++ s

/-- Encoding of an optional numeric claim into the signature input. -/
def encOptNat : Option Nat → String
  | none => "-"
  | some n => "+" ++ toString n

/-- Serialized claims, the data the signature covers. -/
def encodeClaims (c : JwtClaims) : String :=
  encOpt c.envId ++ "|" ++ encOpt c.legacyId ++ "|" ++ encOpt c.email ++ "|" ++
    encOptNat c.i ++ "|" ++ toString c.iat ++ "|" ++ encOptNat c.exp

/-- The HMAC of the token, modelled as the secret paired with the payload. -/
def mkSig (secret : String) (c : JwtClaims) : String :=
  secret ++ "." ++ encodeClaims c

/-- A signed token: claims plus signature. -/
structure Token where
  claims : JwtClaims
  sig : String
deriving DecidableEq, Repr

/-- Verification outcomes of `jwt.verify` (`Malformed` / `Expired`). -/
inductive JwtError where
  | invalid
  | expired
deriving DecidableEq, Repr

/-- Model of `jwt.sign(payload, secret, options?)`: stamps `iat` with the
current time and `exp` only when an `expiresIn` option is supplied. -/
def jwtSign (envId legacyId email : Option String) (i : Option Nat)
    (secret : String) (expiresIn : Option Nat) (now : Nat) : Token :=
  let claims : JwtClaims :=
    { envId := envId, legacyId := legacyId, email := email, i := i,
      iat := now, exp := expiresIn.map (fun d => now + d) }
  { claims := claims, sig := mkSig secret claims }

/-- Model of `jwt.verify(token, secret, cb)`: signature check first, then the
expiry check, which only runs when the token carries an `exp` claim. -/
def jwtVerify (t : Token) (secret : String) (now : Nat) : Except JwtError JwtClaims :=
  if t.sig = mkSig secret t.claims then
    match t.claims.exp with
    | some e => if e ≤ now then .error .expired else .ok t.claims
    | none => .ok t.claims
  else .error .invalid

/-- The per-signer mint in the creation handler:
`jwt.sign({ envId: String(env._id), email: s.email, i }, JWT_SECRET)` —
note that no `expiresIn` option is passed. -/
def mintSignerToken (envId email : String) (i : Nat) (now : Nat) : Token :=
  jwtSign (some envId) none (some email) (some i) JWT_SECRET none now

/-- The request fields the `verifyJWT` middleware attaches on success. -/
structure AuthedReq where
  envId : Option String
  signerEmail : Option String
  signerIndex : Option Nat
deriving DecidableEq, Repr

/-- JavaScript truthiness of an optional string (`undefined` and `""` are
falsy). -/
def truthyStr : Option String → Bool
  | some s => s ≠ ""
  | none => false

/-- Model of the `verifyJWT` middleware: 401 on any verification error,
otherwise `req.envId = decoded.envId || decoded._id`,
`req.signerEmail = decoded.email`, and `req.signerIndex = decoded.i` when it
is a number. -/
def verifyJWTMiddleware (token : Token) (now : Nat) : Except Nat AuthedReq :=
  match jwtVerify token JWT_SECRET now with
  | .error _ => .error 401
  | .ok d =>
      .ok { envId := if truthyStr d.envId then d.envId else d.legacyId,
            signerEmail := d.email,
            signerIndex := d.i }

/-! ## Envelope state machine (the three mutating handlers' cores) -/

/-- Predicate of the delivery aggregate check:
`[DELIVERED, COMPLETED].includes(s.status)`. -/
def deliveredOrCompleted (s : Signer) : Bool :=
  s.status = SignStatus.DELIVERED ∨ s.status = SignStatus.COMPLETED

/-- Predicate of the completion aggregate check. -/
def signerCompleted (s : Signer) : Bool :=
  s.status = SignStatus.COMPLETED

/-- Core of `GET /api/envelopes/by-token/:token` after signer resolution:
if the addressed signer is `SENT`, move it to `DELIVERED`, stamp
`deliveredAt`, and bump the envelope to `DELIVERED` when every signer is now
`DELIVERED` or `COMPLETED`; otherwise change nothing. -/
def recordDelivery (env : Envelope) (idx : Nat) (now : Nat) : Envelope :=
  match env.signers[idx]? with
  | none => env
  | some s =>
    if s.status = SignStatus.SENT then
      let signers2 :=
        env.signers.set idx
          { s with status := SignStatus.DELIVERED, deliveredAt := some now }
      { env with
          signers := signers2,
          documentStatus :=
            if signers2.all deliveredOrCompleted then SignStatus.DELIVERED
            else env.documentStatus }
    else env

/-- Core of `POST /api/envelopes/:token/complete` after signer resolution:
unconditionally set the addressed signer to `COMPLETED`, stamp `completedAt`,
replace the envelope-level `signedPdf` with the new upload's URL, and set the
envelope to `COMPLETED` when every signer is now `COMPLETED`. -/
def recordCompletion (env : Envelope) (idx : Nat) (now : Nat) (fname : String) : Envelope :=
  match env.signers[idx]? with
  | none => env
  | some s =>
    let signers2 :=
      env.signers.set idx
        { s with status := SignStatus.COMPLETED, completedAt := some now }
    { env with
        signers := signers2,
        signedPdf := BASE_URL ++ "/storage/signed/" ++ fname,
        documentStatus :=
          if signers2.all signerCompleted then SignStatus.COMPLETED
          else env.documentStatus }

/-- Core of `POST /api/envelopes/:token/cancel`: the envelope and every
signer are forced to `VOIDED`, all other signer fields preserved. -/
def cancelEnvelope (env : Envelope) : Envelope :=
  { env with
      documentStatus := SignStatus.VOIDED,
      signers := env.signers.map (fun s => { s with status := SignStatus.VOIDED }) }

/-- Model of `signers.findIndex(s => s.email === req.signerEmail)` (`-1` when
absent or when the claimed email is `undefined`). -/
def jsFindIndexEmail (signers : List Signer) (email : Option String) : Int :=
  match email with
  | none => -1
  | some e =>
    match signers.findIdx? (fun s => s.email = e) with
    | some k => (k : Int)
    | none => -1

/-- Signer resolution shared by the by-token and complete handlers: prefer
the numeric token index, fall back to email lookup, reject out-of-range. -/
def resolveIdx (env : Envelope) (req : AuthedReq) : Option Nat :=
  let idx : Int :=
    match req.signerIndex with
    | some i => (i : Int)
    | none => jsFindIndexEmail env.signers req.signerEmail
  if 0 ≤ idx ∧ idx < (env.signers.length : Int) then some idx.toNat else none

/-! ## HTTP handlers over the store -/

/-- The envelope collection: Mongo ids paired with documents. -/
abbrev Store : Type := List (String × Envelope)

/-- Model of `Envelope.findById`. -/
def findEnvS (store : Store) (id : String) : Option Envelope :=
  (List.find? (fun p => p.1 = id) store).map (fun p => p.2)

/-- Model of saving a document back under its id. -/
def updateEnvS (store : Store) (id : String) (env : Envelope) : Store :=
  List.map (fun p => if p.1 = id then (p.1, env) else p) store

/-- The responses the handlers produce, restricted to the fields the claims
here concern (status code and message for errors, the JSON fields named by
the claims for successes). -/
inductive HttpResp where
  | err (status : Nat) (msg : String)
  | okCreate (envelopeId : String) (envelopeSignUrl : String)
      (documentStatus : SignStatus) (signerLinks : List (String × String))
  | okByToken (envelopeId : String) (documentStatus : SignStatus)
      (signerStatus : SignStatus)
  | okComplete (downloadUrl : String) (envelopeId : String)
      (signerIndex : Nat) (documentStatus : SignStatus)
  | okCancel (envelopeId : String)
deriving DecidableEq, Repr

/-- The template selection as seen through `JSON.parse` (array kept, other
JSON rejected as non-array, parse failure split on `/[,\s]+/`). -/
inductive TemplatesInput where
  | jsonArr (l : List String)
  | jsonNonArr
  | badJson (s : String)
deriving DecidableEq, Repr

/-- The `selected` value of the creation handler; `none` models a non-array
`JSON.parse` result (rejected by the `Array.isArray` check). -/
def selectedOf : TemplatesInput → Option (List String)
  | .jsonArr l => some l
  | .jsonNonArr => none
  | .badJson s =>
      some (((splitRunsBy isTplDelim s).map jsTrim).filter (fun t => t ≠ ""))

/-- The signing link rendered into a signer's `signedUrl`. -/
def signerUrlFor (envId email : String) (i now : Nat) : String :=
  BASE_URL ++ "/sign/" ++ encodeClaims (mintSignerToken envId email i now).claims ++
    "." ++ (mintSignerToken envId email i now).sig

/-- A generated original-file descriptor
(`fileBase` stands for the `Date.now()-generateId()` prefix). -/
def envFileFor (fileBase : String) (type : String) : FileDesc :=
  let fileName := fileBase ++ "-" ++ type ++ ".html"
  { filename := fileName, storedName := fileName,
    publicUrl := BASE_URL ++ "/storage/originals/" ++ fileName,
    mimetype := "text/html" }

/-- A freshly created signer (`status: SENT`, `sentAt: now`,
`name: r.name || name || ""`). -/
def mkSigner (formName : String) (now : Nat) (r : Recipient) : Signer :=
  { email := r.email,
    name := if r.name ≠ "" then r.name else (if formName ≠ "" then formName else ""),
    status := SignStatus.SENT, sentAt := some now,
    deliveredAt := none, completedAt := none, signedUrl := "" }

/-- The token-minting loop of the creation handler: the i-th signer gets the
link rendering the token signed over `(envId, email, i)`. -/
def attachLinks (envId : String) (now : Nat) : Nat → List Signer → List Signer
  | _, [] => []
  | i, s :: rest =>
      { s with signedUrl := signerUrlFor envId s.email i now } ::
        attachLinks envId now (i + 1) rest

/-- Model of `POST /api/generate-template`.  Nondeterministic inputs are
parameters: `disk` says which template files exist, `fileBase` the generated
file-name prefix, `newId` the Mongo id, `now` the clock, `mailOk` which
`sendMail` calls succeed.  A failing `sendMail` rejects the awaited
`Promise.all`, and the surrounding catch answers 500 — after the envelope
has already been created and saved. -/
def generateTemplate (tIn : TemplatesInput) (rIn : RecipInput) (formName : String)
    (disk : String → Bool) (fileBase : String) (newId : String) (now : Nat)
    (mailOk : String → Bool) (store : Store) : Store × HttpResp :=
  match selectedOf tIn with
  | none => (store, .err 400 "Select at least one template")
  | some sel =>
    if sel = [] then (store, .err 400 "Select at least one template")
    else
      let recipients := parseRecipients rIn
      if recipients = [] then
        (store, .err 400 "Provide at least one valid recipient email")
      else
        let files := (sel.filter disk).map (envFileFor fileBase)
        if files = [] then (store, .err 404 "No templates found")
        else
          let signers := attachLinks newId now 0 (recipients.map (mkSigner formName now))
          let env : Envelope :=
            { signers := signers, documentStatus := SignStatus.SENT,
              files := files, pdf := "", signedPdf := "",
              signedUrl := ((signers.head?).map (fun s => s.signedUrl)).getD "" }
          let store2 := store ++ [(newId, env)]
          if signers.all (fun s => mailOk s.email) then
            (store2, .okCreate newId env.signedUrl env.documentStatus
              (signers.map (fun s => (s.email, s.signedUrl))))
          else (store2, .err 500 "Generation failed")

/-- Model of `GET /api/envelopes/by-token/:token`. -/
def byTokenHandler (store : Store) (token : Token) (verifyNow reqNow : Nat) :
    Store × HttpResp :=
  match verifyJWTMiddleware token verifyNow with
  | .error c => (store, .err c "Invalid token")
  | .ok req =>
    match req.envId with
    | none => (store, .err 404 "Envelope not found")
    | some id =>
      match findEnvS store id with
      | none => (store, .err 404 "Envelope not found")
      | some env =>
        match resolveIdx env req with
        | none => (store, .err 400 "Signer not found in envelope")
        | some idx =>
          let env2 := recordDelivery env idx reqNow
          (updateEnvS store id env2,
           .okByToken id env2.documentStatus
             (((env2.signers[idx]?).map (fun s => s.status)).getD SignStatus.PENDING))

/-- Model of `POST /api/envelopes/:token/complete`. -/
def completeHandler (store : Store) (token : Token) (file : Option String)
    (verifyNow reqNow : Nat) : Store × HttpResp :=
  match verifyJWTMiddleware token verifyNow with
  | .error c => (store, .err c "Invalid token")
  | .ok req =>
    match file with
    | none => (store, .err 400 "Missing file in upload")
    | some fname =>
      match req.envId with
      | none => (store, .err 404 "Envelope not found")
      | some id =>
        match findEnvS store id with
        | none => (store, .err 404 "Envelope not found")
        | some env =>
          match resolveIdx env req with
          | none => (store, .err 400 "Signer not found in envelope")
          | some idx =>
            let env2 := recordCompletion env idx reqNow fname
            (updateEnvS store id env2,
             .okComplete env2.signedPdf id idx env2.documentStatus)

/-- Model of `POST /api/envelopes/:token/cancel`. -/
def cancelHandler (store : Store) (token : Token) (verifyNow : Nat) :
    Store × HttpResp :=
  match verifyJWTMiddleware token verifyNow with
  | .error c => (store, .err c "Invalid token")
  | .ok req =>
    match req.envId with
    | none => (store, .err 404 "Envelope not found")
    | some id =>
      match findEnvS store id with
      | none => (store, .err 404 "Envelope not found")
      | some env => (updateEnvS store id (cancelEnvelope env), .okCancel id)

/-- Modelled from the spec (section 4.3): the pure aggregate function of the
signer statuses — VOIDED when a cancel fired, COMPLETED when all signers are
COMPLETED, DELIVERED when all are in DELIVERED/COMPLETED but not all
COMPLETED, SENT otherwise.  Used only to compare the code's behaviour with
the spec's aggregate rule. -/
def specAggregate (cancelFired : Bool) (signers : List Signer) : SignStatus :=
  if cancelFired then SignStatus.VOIDED
  else if signers.all signerCompleted then SignStatus.COMPLETED
  else if signers.all deliveredOrCompleted then SignStatus.DELIVERED
  else SignStatus.SENT

/-! ## Auxiliary definitions used by the theorems -/

/-- Whether the by-token read actually fires the SENT to DELIVERED
transition for the addressed signer. -/
def deliveryFiresB (env : Envelope) (idx : Nat) : Bool :=
  match env.signers[idx]? with
  | some s => s.status = SignStatus.SENT
  | none => false

/-- First-occurrence-wins deduplication of `(email, name)` pairs, carrying
the set of already-seen emails; reference formulation the fold of
`parseRecipients` is proved equal to. -/
def firstWinsAux : List (String × String) → List String → List Recipient
  | [], _ => []
  | (e, n) :: rest, seen =>
    if e ∈ seen then firstWinsAux rest seen
    else ⟨e, n⟩ :: firstWinsAux rest (e :: seen)

/-- The distinct elements of a string list in first-occurrence order. -/
def firstOccAux : List String → List String → List String
  | [], _ => []
  | e :: rest, seen =>
    if e ∈ seen then firstOccAux rest seen else e :: firstOccAux rest (e :: seen)

/-- The validation stage of the creation handler: which client error, if
any, the request is rejected with before the envelope is persisted. -/
def creationError (tIn : TemplatesInput) (rIn : RecipInput) (disk : String → Bool) :
    Option (Nat × String) :=
  match selectedOf tIn with
  | none => some (400, "Select at least one template")
  | some sel =>
    if sel = [] then some (400, "Select at least one template")
    else if parseRecipients rIn = [] then
      some (400, "Provide at least one valid recipient email")
    else if sel.filter disk = [] then some (404, "No templates found")
    else none

/-- A fresh SENT signer used by the concrete scenarios. -/
def sentSigner (email : String) : Signer :=
  { email := email, name := "", status := SignStatus.SENT, sentAt := some 0,
    deliveredAt := none, completedAt := none, signedUrl := "" }

/-- Two-signer envelope in the state just after creation. -/
def c1Env : Envelope :=
  { signers := [sentSigner "a@x.com", sentSigner "b@x.com"],
    documentStatus := SignStatus.SENT, files := [], pdf := "",
    signedPdf := "", signedUrl := "" }

/-- Two-signer envelope in the state just after creation. -/
def c2Env : Envelope :=
  { signers := [sentSigner "a@x.com", sentSigner "b@x.com"],
    documentStatus := SignStatus.SENT, files := [], pdf := "",
    signedPdf := "", signedUrl := "" }

/-- One-signer envelope in the state just after creation. -/
def c8Env : Envelope :=
  { signers := [sentSigner "a@x.com"],
    documentStatus := SignStatus.SENT, files := [], pdf := "",
    signedPdf := "", signedUrl := "" }

/-- One-signer envelope in the state just after creation. -/
def c10Env : Envelope :=
  { signers := [sentSigner "a@x.com"],
    documentStatus := SignStatus.SENT, files := [], pdf := "",
    signedPdf := "", signedUrl := "" }

/-- A signer that has already completed. -/
def doneSigner (email : String) : Signer :=
  { email := email, name := "", status := SignStatus.COMPLETED,
    sentAt := some 0, deliveredAt := some 1, completedAt := some 3,
    signedUrl := "" }

/-- Two-signer envelope with one signer COMPLETED and one SENT. -/
def c7Env : Envelope :=
  { signers := [doneSigner "a@x.com", sentSigner "b@x.com"],
    documentStatus := SignStatus.SENT, files := [], pdf := "",
    signedPdf := "", signedUrl := "" }

/-! ## Helper lemmas -/

/-- A token minted by the creation handler verifies at any time and the
middleware reconstructs exactly the minted triple (envelope ids are nonempty
strings, so the `decoded.envId || decoded._id` fallback is not taken). -/
theorem mintVerify_ok (envId email : String) (i mintNow verifyNow : Nat)
    (hid : envId ≠ "") :
    verifyJWTMiddleware (mintSignerToken envId email i mintNow) verifyNow =
      .ok { envId := some envId, signerEmail := some email, signerIndex := some i } := by
  simp [verifyJWTMiddleware, jwtVerify, mintSignerToken, jwtSign, truthyStr, hid]

/-- Signer resolution always takes the numeric index of the token when it is
in range. -/
theorem resolveIdx_index (env : Envelope) (req : AuthedReq) (i : Nat)
    (hreq : req.signerIndex = some i) (hi : i < env.signers.length) :
    resolveIdx env req = some i := by
  simp only [resolveIdx, hreq]
  rw [if_pos]
  · simp
  · exact ⟨Int.ofNat_nonneg i, by exact_mod_cast hi⟩

/-- Saving a document under an id it was found at makes subsequent lookups
return the saved value. -/
theorem findEnvS_updateEnvS (store : Store) (id : String) (e old : Envelope)
    (h : findEnvS store id = some old) :
    findEnvS (updateEnvS store id e) id = some e := by
  induction store with
  | nil => simp [findEnvS] at h
  | cons p rest ih =>
      by_cases hp : p.1 = id
      · simp [findEnvS, updateEnvS, List.find?, hp]
      · simp only [findEnvS, updateEnvS, List.map_cons, if_neg hp] at *
        rw [List.find?_cons_of_neg _ (by simpa using hp)] at h
        rw [List.find?_cons_of_neg _ (by simpa using hp)]
        exact ih h

/-! ## Claim theorems -/

/-- C4: the per-signer tokens minted by the creation handler carry no `exp`
claim (the `jwt.sign` call passes no `expiresIn` option, although an
`expireTime` configuration exists), so verification succeeds at every later
time: there is no time after which a minted signing-link token fails to
verify, contradicting the claim that every such token expires. -/
theorem c4_minted_tokens_never_expire (envId email : String)
    (i mintNow verifyNow : Nat) :
    (mintSignerToken envId email i mintNow).claims.exp = none
    ∧ jwtVerify (mintSignerToken envId email i mintNow) JWT_SECRET verifyNow =
        .ok (mintSignerToken envId email i mintNow).claims := by
  refine ⟨rfl, ?_⟩
  simp [jwtVerify, mintSignerToken, jwtSign]

/-- C6: verifying a token minted for a triple `(envelopeId, email, index)`
yields a request carrying exactly that triple, at any verification time (the
minted tokens carry no expiry); the `decoded.envId || decoded._id` fallback
requires the envelope id to be a nonempty string, which Mongo ids are. -/
theorem c6_mint_verify_round_trip (envId email : String)
    (i mintNow verifyNow : Nat) (hid : envId ≠ "") :
    verifyJWTMiddleware (mintSignerToken envId email i mintNow) verifyNow =
      .ok { envId := some envId, signerEmail := some email, signerIndex := some i } :=
  mintVerify_ok envId email i mintNow verifyNow hid

/-- Witness for C6 at a concrete triple. -/
theorem c6_mint_verify_round_trip_witness :
    ("689f1c2" ≠ "")
    ∧ verifyJWTMiddleware (mintSignerToken "689f1c2" "a@x.com" 2 5) 999999 =
        .ok { envId := some "689f1c2", signerEmail := some "a@x.com",
              signerIndex := some 2 } :=
  ⟨by decide, c6_mint_verify_round_trip "689f1c2" "a@x.com" 2 5 999999 (by decide)⟩

/-- C7: one cancel call with a valid token on any stored envelope — its
signers in any mixture of states — voids every signer and the envelope
unconditionally: the stored result has `documentStatus = VOIDED` and every
signer `VOIDED`. -/
theorem c7_cancel_absolute (store : Store) (envId email : String)
    (i mintNow verifyNow : Nat) (env : Envelope)
    (hid : envId ≠ "") (hfind : findEnvS store envId = some env) :
    cancelHandler store (mintSignerToken envId email i mintNow) verifyNow =
      (updateEnvS store envId (cancelEnvelope env), .okCancel envId)
    ∧ (cancelEnvelope env).documentStatus = SignStatus.VOIDED
    ∧ (∀ s ∈ (cancelEnvelope env).signers, s.status = SignStatus.VOIDED)
    ∧ findEnvS (updateEnvS store envId (cancelEnvelope env)) envId =
        some (cancelEnvelope env) := by
  refine ⟨?_, rfl, ?_, findEnvS_updateEnvS store envId _ env hfind⟩
  · simp [cancelHandler, mintVerify_ok envId email i mintNow verifyNow hid, hfind]
  · intro s hs
    simp only [cancelEnvelope, List.mem_map] at hs
    obtain ⟨t, -, rfl⟩ := hs
    rfl

/-- Witness for C7: a stored envelope with one COMPLETED and one SENT signer
is voided wholesale. -/
theorem c7_cancel_absolute_witness :
    ("id7" ≠ "") ∧ findEnvS [("id7", c7Env)] "id7" = some c7Env
    ∧ (cancelHandler [("id7", c7Env)] (mintSignerToken "id7" "a@x.com" 0 0) 5 =
        (updateEnvS [("id7", c7Env)] "id7" (cancelEnvelope c7Env), .okCancel "id7")
      ∧ (cancelEnvelope c7Env).documentStatus = SignStatus.VOIDED
      ∧ (∀ s ∈ (cancelEnvelope c7Env).signers, s.status = SignStatus.VOIDED)
      ∧ findEnvS (updateEnvS [("id7", c7Env)] "id7" (cancelEnvelope c7Env)) "id7" =
          some (cancelEnvelope c7Env)) :=
  ⟨by decide, by decide,
    c7_cancel_absolute [("id7", c7Env)] "id7" "a@x.com" 0 0 5 c7Env
      (by decide) (by decide)⟩

/-- C10: the complete handler applies no state-based precondition: for any
stored envelope and in-range signer index from a valid token, with a file
uploaded, the request succeeds regardless of the signer's or envelope's
current status (VOIDED or COMPLETED included), sets that signer to
COMPLETED, overwrites the envelope-level `signedPdf` with the new upload's
URL, and sets `documentStatus` to COMPLETED whenever this makes every signer
COMPLETED. -/
theorem c10_complete_unconditional (store : Store) (id email fname : String)
    (i mintNow verifyNow reqNow : Nat) (env : Envelope)
    (hid : id ≠ "") (hfind : findEnvS store id = some env)
    (hi : i < env.signers.length) :
    completeHandler store (mintSignerToken id email i mintNow) (some fname)
        verifyNow reqNow =
      (updateEnvS store id (recordCompletion env i reqNow fname),
        .okComplete (recordCompletion env i reqNow fname).signedPdf id i
          (recordCompletion env i reqNow fname).documentStatus)
    ∧ (recordCompletion env i reqNow fname).signers[i]? =
        (env.signers[i]?).map (fun s =>
          { s with status := SignStatus.COMPLETED, completedAt := some reqNow })
    ∧ (recordCompletion env i reqNow fname).signedPdf =
        BASE_URL ++ "/storage/signed/" ++ fname
    ∧ ((recordCompletion env i reqNow fname).signers.all signerCompleted = true →
        (recordCompletion env i reqNow fname).documentStatus = SignStatus.COMPLETED) := by
  obtain ⟨s, hs⟩ : ∃ s, env.signers[i]? = some s :=
    ⟨env.signers.get ⟨i, hi⟩, by simp⟩
  have hres : resolveIdx env
      { envId := some id, signerEmail := some email, signerIndex := some i } = some i :=
    resolveIdx_index env _ i rfl hi
  refine ⟨?_, ?_, ?_, ?_⟩
  · simp [completeHandler, mintVerify_ok id email i mintNow verifyNow hid, hfind, hres]
  · simp [recordCompletion, hs, List.getElem?_set, hi]
  · simp [recordCompletion, hs]
  · intro hall
    simp only [recordCompletion, hs] at hall ⊢
    simp [hall]

/-- Witness for C10: the cancelled (all-VOIDED) one-signer envelope is
completed through the handler, ending with `documentStatus = COMPLETED`. -/
theorem c10_complete_unconditional_witness :
    ("idX" ≠ "") ∧ findEnvS [("idX", cancelEnvelope c10Env)] "idX" =
        some (cancelEnvelope c10Env)
    ∧ (0 < (cancelEnvelope c10Env).signers.length)
    ∧ completeHandler [("idX", cancelEnvelope c10Env)]
        (mintSignerToken "idX" "a@x.com" 0 1) (some "up.pdf") 50 60 =
      (updateEnvS [("idX", cancelEnvelope c10Env)] "idX"
          (recordCompletion (cancelEnvelope c10Env) 0 60 "up.pdf"),
        .okComplete (recordCompletion (cancelEnvelope c10Env) 0 60 "up.pdf").signedPdf
          "idX" 0 (recordCompletion (cancelEnvelope c10Env) 0 60 "up.pdf").documentStatus)
    ∧ (recordCompletion (cancelEnvelope c10Env) 0 60 "up.pdf").documentStatus =
        SignStatus.COMPLETED :=
  ⟨by decide, by decide, by decide,
    (c10_complete_unconditional [("idX", cancelEnvelope c10Env)] "idX" "a@x.com"
      "up.pdf" 0 1 50 60 (cancelEnvelope c10Env) (by decide) (by decide) (by decide)).1,
    by decide⟩

/-- C1 counterexample: on a two-signer envelope (both SENT), deliver signer 1
and then complete signer 0.  Every signer is now in DELIVERED/COMPLETED (not
all COMPLETED), so the spec's aggregate function says DELIVERED, but the
completion handler only checks the all-COMPLETED rule and leaves
`documentStatus = SENT`: the aggregate invariant fails when a completion is
the mutation that brings every signer into DELIVERED/COMPLETED. -/
theorem c1_counterexample :
    (recordCompletion (recordDelivery c1Env 1 5) 0 6 "f.pdf").documentStatus =
        SignStatus.SENT
    ∧ specAggregate false
        (recordCompletion (recordDelivery c1Env 1 5) 0 6 "f.pdf").signers =
        SignStatus.DELIVERED
    ∧ (recordCompletion (recordDelivery c1Env 1 5) 0 6 "f.pdf").documentStatus ≠
        specAggregate false
          (recordCompletion (recordDelivery c1Env 1 5) 0 6 "f.pdf").signers := by
  decide

/-- C1 amended: the aggregate is recomputed only partially, per operation.
After a delivery that fires, `documentStatus` becomes DELIVERED exactly when
all signers are then in DELIVERED/COMPLETED, and is otherwise unchanged;
after a completion it becomes COMPLETED exactly when all signers are then
COMPLETED, and is otherwise unchanged (in particular it stays SENT when a
completion leaves the signers all in DELIVERED/COMPLETED but not all
COMPLETED); a cancel always sets VOIDED. -/
theorem c1_amended_aggregate (env : Envelope) (idx now : Nat) (fname : String) :
    ((recordDelivery env idx now).documentStatus =
      if deliveryFiresB env idx
          ∧ (recordDelivery env idx now).signers.all deliveredOrCompleted = true
      then SignStatus.DELIVERED else env.documentStatus)
    ∧ ((recordCompletion env idx now fname).documentStatus =
      if idx < env.signers.length
          ∧ (recordCompletion env idx now fname).signers.all signerCompleted = true
      then SignStatus.COMPLETED else env.documentStatus)
    ∧ (cancelEnvelope env).documentStatus = SignStatus.VOIDED := by
  refine ⟨?_, ?_, rfl⟩
  · rcases hs : env.signers[idx]? with - | s
    · simp [recordDelivery, deliveryFiresB, hs]
    · by_cases hst : s.status = SignStatus.SENT
      · have hfire : deliveryFiresB env idx = true := by
          simp [deliveryFiresB, hs, hst]
        by_cases hall :
            (env.signers.set idx
              { s with status := SignStatus.DELIVERED,
                       deliveredAt := some now }).all deliveredOrCompleted = true
        · simp [recordDelivery, hs, hst, hfire, hall]
        · simp [recordDelivery, hs, hst, hfire, hall]
      · have hfire : deliveryFiresB env idx = false := by
          simp [deliveryFiresB, hs, hst]
        simp [recordDelivery, hs, hst, hfire]
  · rcases hs : env.signers[idx]? with - | s
    · have hlen : env.signers.length ≤ idx := by
        by_contra hlt
        push_neg at hlt
        obtain ⟨t, ht⟩ : ∃ t, env.signers[idx]? = some t :=
          ⟨env.signers.get ⟨idx, hlt⟩, by simp⟩
        simp [hs] at ht
      have hnlt : ¬ idx < env.signers.length := by omega
      simp [recordCompletion, hs, hnlt]
    · obtain ⟨hlt, -⟩ := List.getElem?_eq_some.mp hs
      by_cases hall :
          (env.signers.set idx
            { s with status := SignStatus.COMPLETED,
                     completedAt := some now }).all signerCompleted = true
      · simp [recordCompletion, hs, hall, hlt]
      · simp [recordCompletion, hs, hall, hlt]

/-- C2 counterexample: after a cancel every signer is VOIDED, yet a
subsequent completion with a valid token moves the addressed signer from
VOIDED to COMPLETED, and completing every signer moves the envelope's
`documentStatus` out of VOIDED to COMPLETED — contradicting that no
operation leaves VOIDED. -/
theorem c2_counterexample :
    ((cancelEnvelope c2Env).signers[0]?).map (fun s => s.status) =
        some SignStatus.VOIDED
    ∧ (((recordCompletion (cancelEnvelope c2Env) 0 7 "f.pdf").signers[0]?).map
        (fun s => s.status)) = some SignStatus.COMPLETED
    ∧ (recordCompletion (recordCompletion (cancelEnvelope c2Env) 0 7 "f.pdf")
        1 8 "g.pdf").documentStatus = SignStatus.COMPLETED := by
  decide

/-- Shape of the signer list after a delivery that fires. -/
theorem recordDelivery_signers_fire (env : Envelope) (idx now : Nat) (s : Signer)
    (hs : env.signers[idx]? = some s) (hst : s.status = SignStatus.SENT) :
    (recordDelivery env idx now).signers =
      env.signers.set idx
        { s with status := SignStatus.DELIVERED, deliveredAt := some now } := by
  simp [recordDelivery, hs, hst]

/-- Shape of the signer list after a completion with a valid index. -/
theorem recordCompletion_signers (env : Envelope) (idx now : Nat) (fname : String)
    (s : Signer) (hs : env.signers[idx]? = some s) :
    (recordCompletion env idx now fname).signers =
      env.signers.set idx
        { s with status := SignStatus.COMPLETED, completedAt := some now } := by
  simp [recordCompletion, hs]

/-- Delivery is a no-op when the addressed signer is not SENT. -/
theorem recordDelivery_noop (env : Envelope) (idx now : Nat) (s : Signer)
    (hs : env.signers[idx]? = some s) (hst : s.status ≠ SignStatus.SENT) :
    recordDelivery env idx now = env := by
  simp [recordDelivery, hs, hst]

/-- Delivery is a no-op when the index is out of range. -/
theorem recordDelivery_none (env : Envelope) (idx now : Nat)
    (hs : env.signers[idx]? = none) :
    recordDelivery env idx now = env := by
  simp [recordDelivery, hs]

/-- C2 amended: per-operation transition characterization.  Delivery moves
only the addressed signer and only from SENT to DELIVERED; cancel moves
every signer to VOIDED from any state; but completion moves the addressed
signer to COMPLETED from ANY state — including VOIDED — so VOIDED is not
terminal for a signer, and (with `c1_amended_aggregate`'s completion rule)
not terminal for the envelope either. -/
theorem c2_amended_transitions (env : Envelope) (idx now j : Nat) (fname : String) :
    ((recordDelivery env idx now).signers[j]? =
      (env.signers[j]?).map (fun s =>
        if j = idx ∧ s.status = SignStatus.SENT
        then { s with status := SignStatus.DELIVERED, deliveredAt := some now }
        else s))
    ∧ ((recordCompletion env idx now fname).signers[j]? =
      (env.signers[j]?).map (fun s =>
        if j = idx
        then { s with status := SignStatus.COMPLETED, completedAt := some now }
        else s))
    ∧ ((cancelEnvelope env).signers[j]? =
      (env.signers[j]?).map (fun s => { s with status := SignStatus.VOIDED })) := by
  refine ⟨?_, ?_, ?_⟩
  · rcases hs : env.signers[idx]? with - | s
    · by_cases hj : j = idx
      · subst hj
        simp [recordDelivery, hs]
      · rcases ht : env.signers[j]? with - | t
        · simp [recordDelivery, hs, ht]
        · simp [recordDelivery, hs, ht, hj]
    · obtain ⟨hlt, -⟩ := List.getElem?_eq_some.mp hs
      by_cases hst : s.status = SignStatus.SENT
      · rw [recordDelivery_signers_fire env idx now s hs hst, List.getElem?_set]
        by_cases hj : j = idx
        · subst hj
          simp [hs, hlt, hst]
        · rw [if_neg (by omega)]
          rcases ht : env.signers[j]? with - | t
          · simp
          · simp [hj]
      · have henv : recordDelivery env idx now = env := by
          simp [recordDelivery, hs, hst]
        rw [henv]
        by_cases hj : j = idx
        · subst hj
          simp [hs, hst]
        · rcases ht : env.signers[j]? with - | t
          · simp
          · simp [hj]
  · rcases hs : env.signers[idx]? with - | s
    · by_cases hj : j = idx
      · subst hj
        simp [recordCompletion, hs]
      · rcases ht : env.signers[j]? with - | t
        · simp [recordCompletion, hs, ht]
        · simp [recordCompletion, hs, ht, hj]
    · obtain ⟨hlt, -⟩ := List.getElem?_eq_some.mp hs
      rw [recordCompletion_signers env idx now fname s hs, List.getElem?_set]
      by_cases hj : j = idx
      · subst hj
        simp [hs, hlt]
      · rw [if_neg (by omega)]
        rcases ht : env.signers[j]? with - | t
        · simp
        · simp [hj]
  · simp [cancelEnvelope, List.getElem?_map]

/-- C8 counterexample: completing the same signer twice at different times
overwrites `completedAt` — the second completion changes it from time 1 to
time 2, contradicting "set exactly once, never overwritten". -/
theorem c8_counterexample :
    (((recordCompletion c8Env 0 1 "u1").signers[0]?).map (fun s => s.completedAt)) =
        some (some 1)
    ∧ (((recordCompletion (recordCompletion c8Env 0 1 "u1") 0 2 "u2").signers[0]?).map
        (fun s => s.completedAt)) = some (some 2)
    ∧ (((recordCompletion (recordCompletion c8Env 0 1 "u1") 0 2 "u2").signedPdf) ≠
        (recordCompletion c8Env 0 1 "u1").signedPdf) := by
  decide

/-- C8 amended: `sentAt` is set at creation and no operation rewrites it;
`deliveredAt` is written only by the SENT-to-DELIVERED transition and a
second delivery of the same signer is a complete no-op (so `deliveredAt` is
indeed never overwritten); but `completedAt` is rewritten by EVERY completion
targeting the signer, so re-invoking completion on an already-COMPLETED
signer replaces `completedAt` (and the envelope-level `signedPdf`). -/
theorem c8_amended_timestamps (env : Envelope) (idx now now2 j : Nat)
    (f1 : String) :
    (recordDelivery (recordDelivery env idx now) idx now2 = recordDelivery env idx now)
    ∧ (((recordDelivery env idx now).signers[j]?).map (fun s => s.sentAt) =
        (env.signers[j]?).map (fun s => s.sentAt))
    ∧ (((recordCompletion env idx now f1).signers[j]?).map (fun s => s.sentAt) =
        (env.signers[j]?).map (fun s => s.sentAt))
    ∧ (((cancelEnvelope env).signers[j]?).map (fun s => s.sentAt) =
        (env.signers[j]?).map (fun s => s.sentAt))
    ∧ (((recordCompletion env idx now f1).signers[j]?).map (fun s => s.deliveredAt) =
        (env.signers[j]?).map (fun s => s.deliveredAt))
    ∧ (((cancelEnvelope env).signers[j]?).map (fun s => s.deliveredAt) =
        (env.signers[j]?).map (fun s => s.deliveredAt))
    ∧ (idx < env.signers.length →
        ((recordCompletion env idx now f1).signers[idx]?).map (fun s => s.completedAt) =
          some (some now)) := by
  refine ⟨?_, ?_, ?_, ?_, ?_, ?_, ?_⟩
  · rcases hs : env.signers[idx]? with - | s
    · rw [recordDelivery_none env idx now hs, recordDelivery_none env idx now2 hs]
    · obtain ⟨hlt, -⟩ := List.getElem?_eq_some.mp hs
      by_cases hst : s.status = SignStatus.SENT
      · have h2 : (recordDelivery env idx now).signers[idx]? =
            some { s with status := SignStatus.DELIVERED, deliveredAt := some now } := by
          rw [recordDelivery_signers_fire env idx now s hs hst, List.getElem?_set]
          simp [hlt]
        exact recordDelivery_noop (recordDelivery env idx now) idx now2 _ h2 (by simp)
      · rw [recordDelivery_noop env idx now s hs hst,
          recordDelivery_noop env idx now2 s hs hst]
  · rcases hs : env.signers[idx]? with - | s
    · rw [recordDelivery_none env idx now hs]
    · obtain ⟨hlt, -⟩ := List.getElem?_eq_some.mp hs
      by_cases hst : s.status = SignStatus.SENT
      · rw [recordDelivery_signers_fire env idx now s hs hst, List.getElem?_set]
        by_cases hj : idx = j
        · subst hj
          simp [hs, hlt]
        · simp [hj]
      · rw [recordDelivery_noop env idx now s hs hst]
  · rcases hs : env.signers[idx]? with - | s
    · simp [recordCompletion, hs]
    · obtain ⟨hlt, -⟩ := List.getElem?_eq_some.mp hs
      rw [recordCompletion_signers env idx now f1 s hs, List.getElem?_set]
      by_cases hj : idx = j
      · subst hj
        simp [hs, hlt]
      · simp [hj]
  · rw [show (cancelEnvelope env).signers =
        env.signers.map (fun s => { s with status := SignStatus.VOIDED }) from rfl,
      List.getElem?_map]
    rcases ht : env.signers[j]? with - | t <;> simp
  · rcases hs : env.signers[idx]? with - | s
    · simp [recordCompletion, hs]
    · obtain ⟨hlt, -⟩ := List.getElem?_eq_some.mp hs
      rw [recordCompletion_signers env idx now f1 s hs, List.getElem?_set]
      by_cases hj : idx = j
      · subst hj
        simp [hs, hlt]
      · simp [hj]
  · rw [show (cancelEnvelope env).signers =
        env.signers.map (fun s => { s with status := SignStatus.VOIDED }) from rfl,
      List.getElem?_map]
    rcases ht : env.signers[j]? with - | t <;> simp
  · intro hlt
    obtain ⟨s, hs⟩ : ∃ s, env.signers[idx]? = some s :=
      ⟨env.signers.get ⟨idx, hlt⟩, by simp⟩
    rw [recordCompletion_signers env idx now f1 s hs, List.getElem?_set]
    simp [hlt]

/-- Witness for C8 at a concrete envelope and index. -/
theorem c8_amended_timestamps_witness :
    (0 < c8Env.signers.length)
    ∧ ((recordCompletion c8Env 0 9 "w.pdf").signers[0]?).map (fun s => s.completedAt) =
        some (some 9) :=
  ⟨by decide, (c8_amended_timestamps c8Env 0 9 9 0 "w.pdf").2.2.2.2.2.2 (by decide)⟩

/-- C9: whenever the creation request falls into one of the three
validation-failure cases (no templates selected, no valid recipients, no
matching template files on disk), the handler answers exactly the
corresponding client error — 400, 400, and 404 respectively, all in the 4xx
client-error class — and the store is untouched: no envelope is persisted. -/
theorem c9_creation_client_errors (tIn : TemplatesInput) (rIn : RecipInput)
    (formName : String) (disk : String → Bool) (fileBase newId : String)
    (now : Nat) (mailOk : String → Bool) (store : Store) (c : Nat) (m : String)
    (h : creationError tIn rIn disk = some (c, m)) :
    generateTemplate tIn rIn formName disk fileBase newId now mailOk store =
      (store, HttpResp.err c m) ∧ 400 ≤ c ∧ c < 500 := by
  rcases hsel : selectedOf tIn with - | sel
  · simp [creationError, hsel] at h
    obtain ⟨h1, h2⟩ := h
    subst h1
    subst h2
    refine ⟨?_, by omega, by omega⟩
    simp [generateTemplate, hsel]
  · by_cases hnil : sel = []
    · simp [creationError, hsel, hnil] at h
      obtain ⟨h1, h2⟩ := h
      subst h1
      subst h2
      refine ⟨?_, by omega, by omega⟩
      simp [generateTemplate, hsel, hnil]
    · by_cases hrec : parseRecipients rIn = []
      · simp [creationError, hsel, hnil, hrec] at h
        obtain ⟨h1, h2⟩ := h
        subst h1
        subst h2
        refine ⟨?_, by omega, by omega⟩
        simp [generateTemplate, hsel, hnil, hrec]
      · by_cases hdisk : sel.filter disk = []
        · simp [creationError, hsel, hnil, hrec, hdisk] at h
          obtain ⟨h1, h2⟩ := h
          subst h1
          subst h2
          refine ⟨?_, by omega, by omega⟩
          simp [generateTemplate, hsel, hnil, hrec, hdisk]
        · simp [creationError, hsel, hnil, hrec, hdisk] at h

/-- Witness for C9 at the no-matching-template-files case: the handler
answers 404 and stores nothing. -/
theorem c9_creation_client_errors_witness :
    creationError (TemplatesInput.badJson "nda") (RecipInput.badJson "a@x.com")
        (fun _ => false) = some (404, "No templates found")
    ∧ generateTemplate (TemplatesInput.badJson "nda") (RecipInput.badJson "a@x.com")
        "N" (fun _ => false) "123" "id9" 0 (fun _ => true) [] =
      ([], HttpResp.err 404 "No templates found")
    ∧ 400 ≤ 404 ∧ 404 < 500 := by
  have h : creationError (TemplatesInput.badJson "nda") (RecipInput.badJson "a@x.com")
      (fun _ => false) = some (404, "No templates found") := by decide
  have main := c9_creation_client_errors (TemplatesInput.badJson "nda")
    (RecipInput.badJson "a@x.com") "N" (fun _ => false) "123" "id9" 0
    (fun _ => true) [] 404 "No templates found" h
  exact ⟨h, main.1, main.2⟩

/-- Attaching signing links preserves each signer's email. -/
theorem attachLinks_emails (newId : String) (now : Nat) :
    ∀ (l : List Signer) (k : Nat),
      (attachLinks newId now k l).map (fun s => s.email) =
        l.map (fun s => s.email) := by
  intro l
  induction l with
  | nil => intro k; rfl
  | cons s rest ih => intro k; simp [attachLinks, ih]

/-- A predicate on emails is invariant under link attachment. -/
theorem attachLinks_all (newId : String) (now : Nat) (q : String → Bool) :
    ∀ (l : List Signer) (k : Nat),
      (attachLinks newId now k l).all (fun s => q s.email) =
        l.all (fun s => q s.email) := by
  intro l
  induction l with
  | nil => intro k; rfl
  | cons s rest ih => intro k; simp [attachLinks, ih]

/-- C3 counterexample: with one valid recipient and a failing `sendMail`, the
creation handler persists the envelope (store grows from empty to one entry)
but answers 500 "Generation failed" instead of the success payload: the send
failure IS surfaced as a failed envelope-creation response, because the
handler awaits `Promise.all` of the sends inside its try block and `sendMail`
rethrows. -/
theorem c3_counterexample :
    (generateTemplate (TemplatesInput.badJson "nda") (RecipInput.badJson "a@x.com")
        "N" (fun _ => true) "123" "id3" 0 (fun _ => false) []).2 =
      HttpResp.err 500 "Generation failed"
    ∧ ((generateTemplate (TemplatesInput.badJson "nda") (RecipInput.badJson "a@x.com")
        "N" (fun _ => true) "123" "id3" 0 (fun _ => false) []).1).length = 1 := by
  decide

/-- C3 amended: when a creation request passes validation and any signer's
notification send fails, the envelope is still created and persisted — the
store gains the new envelope, with one signer per parsed recipient, in state
SENT — but the response is the 500 "Generation failed" error, not the
success payload: creation is not rolled back, yet the failure is surfaced as
a failed response. -/
theorem c3_amended_mail_failure (tIn : TemplatesInput) (rIn : RecipInput)
    (formName : String) (disk : String → Bool) (fileBase newId : String)
    (now : Nat) (mailOk : String → Bool) (store : Store)
    (hok : creationError tIn rIn disk = none)
    (hfail : ∃ r ∈ parseRecipients rIn, mailOk r.email = false) :
    ∃ env : Envelope,
      generateTemplate tIn rIn formName disk fileBase newId now mailOk store =
        (store ++ [(newId, env)], HttpResp.err 500 "Generation failed")
      ∧ env.signers.map (fun s => s.email) =
          (parseRecipients rIn).map (fun r => r.email)
      ∧ env.documentStatus = SignStatus.SENT
      ∧ env.signers ≠ [] := by
  obtain ⟨sel, hsel⟩ : ∃ sel, selectedOf tIn = some sel := by
    rcases hs : selectedOf tIn with - | sel
    · simp [creationError, hs] at hok
    · exact ⟨sel, rfl⟩
  have hnil : ¬ sel = [] := by
    intro hcon
    simp [creationError, hsel, hcon] at hok
  have hrec : ¬ parseRecipients rIn = [] := by
    intro hcon
    simp [creationError, hsel, hnil, hcon] at hok
  have hdisk : ¬ sel.filter disk = [] := by
    intro hcon
    simp [creationError, hsel, hnil, hrec, hcon] at hok
  have hfiles : ¬ (sel.filter disk).map (envFileFor fileBase) = [] := by
    simpa using hdisk
  have hall : ((parseRecipients rIn).map (mkSigner formName now)).all
      (fun s => mailOk s.email) = false := by
    obtain ⟨r, hr, hf⟩ := hfail
    rw [Bool.eq_false_iff]
    intro hcon
    rw [List.all_eq_true] at hcon
    have := hcon (mkSigner formName now r) (List.mem_map_of_mem _ hr)
    simp [mkSigner, hf] at this
  have hall2 : (attachLinks newId now 0 ((parseRecipients rIn).map
      (mkSigner formName now))).all (fun s => mailOk s.email) = false := by
    rw [attachLinks_all newId now mailOk _ 0, hall]
  refine ⟨{ signers := attachLinks newId now 0 ((parseRecipients rIn).map
              (mkSigner formName now)),
            documentStatus := SignStatus.SENT,
            files := (sel.filter disk).map (envFileFor fileBase),
            pdf := "", signedPdf := "",
            signedUrl := (((attachLinks newId now 0 ((parseRecipients rIn).map
              (mkSigner formName now))).head?).map (fun s => s.signedUrl)).getD "" },
          ?_, ?_, rfl, ?_⟩
  · simp only [generateTemplate, hsel, if_neg hnil, if_neg hrec, if_neg hfiles,
      hall2, Bool.false_eq_true, if_neg (by simp : ¬ False)]
  · rw [attachLinks_emails newId now _ 0, List.map_map]
    rfl
  · show attachLinks newId now 0 ((parseRecipients rIn).map
      (mkSigner formName now)) ≠ []
    intro hcon
    have hlen := congrArg List.length (attachLinks_emails newId now
      ((parseRecipients rIn).map (mkSigner formName now)) 0)
    rw [hcon] at hlen
    simp at hlen
    exact hrec (List.length_eq_zero.mp hlen.symm)

/-- Witness for C3's amended statement at a concrete request with a failing
send. -/
theorem c3_amended_mail_failure_witness :
    ∃ env : Envelope,
      generateTemplate (TemplatesInput.badJson "nda") (RecipInput.badJson "a@x.com")
          "N" (fun _ => true) "123" "id3w" 0 (fun _ => false) [] =
        ([("id3w", env)], HttpResp.err 500 "Generation failed")
      ∧ env.signers.map (fun s => s.email) =
          (parseRecipients (RecipInput.badJson "a@x.com")).map (fun r => r.email)
      ∧ env.documentStatus = SignStatus.SENT
      ∧ env.signers ≠ [] := by
  have h := c3_amended_mail_failure (TemplatesInput.badJson "nda")
    (RecipInput.badJson "a@x.com") "N" (fun _ => true) "123" "id3w" 0
    (fun _ => false) [] (by decide) ⟨⟨"a@x.com", ""⟩, by decide, rfl⟩
  simpa using h

/-- The in-place dedup fold of `parseRecipients` equals the seen-set
formulation `firstWinsAux`, for any accumulator whose emails are exactly the
seen set. -/
theorem foldl_dedupInsert_eq (l : List (String × String)) :
    ∀ (acc : List Recipient) (seen : List String),
      (∀ x : String, x ∈ seen ↔ x ∈ acc.map Recipient.email) →
      l.foldl dedupInsert acc = acc ++ firstWinsAux l seen := by
  induction l with
  | nil =>
      intro acc seen hinv
      simp [firstWinsAux]
  | cons p rest ih =>
      intro acc seen hinv
      obtain ⟨e, n⟩ := p
      by_cases hmem : e ∈ seen
      · have hany : acc.any (fun r => r.email = e) = true := by
          rw [List.any_eq_true]
          obtain ⟨r, hr, hre⟩ := List.mem_map.mp ((hinv e).mp hmem)
          exact ⟨r, hr, by simp [hre]⟩
        have hstep : dedupInsert acc (e, n) = acc := by
          simp [dedupInsert, hany]
        rw [List.foldl_cons, hstep, firstWinsAux, if_pos hmem]
        exact ih acc seen hinv
      · have hany : acc.any (fun r => r.email = e) = false := by
          rw [Bool.eq_false_iff]
          intro hcon
          rw [List.any_eq_true] at hcon
          obtain ⟨r, hr, hre⟩ := hcon
          have : e ∈ acc.map Recipient.email := by
            rw [List.mem_map]
            exact ⟨r, hr, by simpa using hre⟩
          exact hmem ((hinv e).mpr this)
        have hstep : dedupInsert acc (e, n) = acc ++ [⟨e, n⟩] := by
          simp [dedupInsert, hany]
        have hinv2 : ∀ x : String,
            x ∈ e :: seen ↔ x ∈ (acc ++ [(⟨e, n⟩ : Recipient)]).map Recipient.email := by
          intro x
          simp only [List.mem_cons, List.map_append, List.mem_append, hinv x]
          constructor
          · rintro (rfl | hx)
            · exact Or.inr (by simp)
            · exact Or.inl hx
          · rintro (hx | hx)
            · exact Or.inr hx
            · simp at hx
              exact Or.inl hx
        rw [List.foldl_cons, hstep, firstWinsAux, if_neg hmem]
        calc List.foldl dedupInsert (acc ++ [(⟨e, n⟩ : Recipient)]) rest
            = (acc ++ [(⟨e, n⟩ : Recipient)]) ++ firstWinsAux rest (e :: seen) :=
              ih _ _ hinv2
          _ = acc ++ (⟨e, n⟩ : Recipient) :: firstWinsAux rest (e :: seen) := by
              simp

/-- The emails of the deduplicated output are the distinct extracted emails
in first-occurrence order. -/
theorem firstWinsAux_map_email :
    ∀ (l : List (String × String)) (seen : List String),
      (firstWinsAux l seen).map Recipient.email = firstOccAux (l.map Prod.fst) seen := by
  intro l
  induction l with
  | nil => intro seen; rfl
  | cons p rest ih =>
      intro seen
      obtain ⟨e, n⟩ := p
      by_cases hmem : e ∈ seen
      · simp [firstWinsAux, firstOccAux, hmem, ih]
      · simp [firstWinsAux, firstOccAux, hmem, ih]

/-- The distinct-emails list avoids the seen set and has no duplicates. -/
theorem firstOccAux_nodup :
    ∀ (l : List String) (seen : List String),
      (∀ x ∈ firstOccAux l seen, x ∉ seen) ∧ (firstOccAux l seen).Nodup := by
  intro l
  induction l with
  | nil => intro seen; exact ⟨by simp [firstOccAux], by simp [firstOccAux]⟩
  | cons e rest ih =>
      intro seen
      by_cases hmem : e ∈ seen
      · refine ⟨?_, by simpa [firstOccAux, hmem] using (ih seen).2⟩
        intro x hx
        exact (ih seen).1 x (by simpa [firstOccAux, hmem] using hx)
      · refine ⟨?_, ?_⟩
        · intro x hx hxseen
          rcases (by simpa [firstOccAux, hmem] using hx : x = e ∨ _) with rfl | hx2
          · exact hmem hxseen
          · exact (ih (e :: seen)).1 x hx2 (by simp [hxseen])
        · rw [show firstOccAux (e :: rest) seen =
              e :: firstOccAux rest (e :: seen) by simp [firstOccAux, hmem]]
          refine List.nodup_cons.mpr ⟨?_, (ih (e :: seen)).2⟩
          intro hmem2
          exact (ih (e :: seen)).1 e hmem2 (by simp)

/-- Every deduplicated output pair occurs in the extracted list. -/
theorem firstWinsAux_mem :
    ∀ (l : List (String × String)) (seen : List String) (r : Recipient),
      r ∈ firstWinsAux l seen → (r.email, r.name) ∈ l := by
  intro l
  induction l with
  | nil => intro seen r hr; simp [firstWinsAux] at hr
  | cons p rest ih =>
      intro seen r hr
      obtain ⟨e, n⟩ := p
      by_cases hmem : e ∈ seen
      · rw [firstWinsAux, if_pos hmem] at hr
        exact List.mem_cons_of_mem _ (ih (seen) r hr)
      · rw [firstWinsAux, if_neg hmem] at hr
        rcases List.mem_cons.mp hr with rfl | hr2
        · exact List.mem_cons_self _ _
        · exact List.mem_cons_of_mem _ (ih (e :: seen) r hr2)

/-- C5: characterization of `parseRecipients`.  The output is the
first-occurrence-wins deduplication of the `(email, name)` pairs extracted
by `processRaw` (which trims, unwraps `Name <email>`, lowercases and applies
the email-shape check, silently dropping failures); its email column is
exactly the list of distinct extracted emails in first-occurrence order —
hence exactly N entries for N distinct valid emails — with no duplicates;
every output traces back to an input entry; a `JSON.parse` failure falls
back to splitting the raw string on `/[\n,;]+/`; and an empty result makes
the creation handler reject with a 4xx client error, leaving the store
untouched. -/
theorem c5_parser_characterization (input : RecipInput) (tIn : TemplatesInput)
    (formName : String) (disk : String → Bool) (fileBase newId : String)
    (now : Nat) (mailOk : String → Bool) (store : Store) :
    parseRecipients input = firstWinsAux (processedList input) []
    ∧ (parseRecipients input).map Recipient.email =
        firstOccAux ((processedList input).map Prod.fst) []
    ∧ ((parseRecipients input).map Recipient.email).Nodup
    ∧ (parseRecipients input).length =
        (firstOccAux ((processedList input).map Prod.fst) []).length
    ∧ (∀ r ∈ parseRecipients input, ∃ raw ∈ rawList input,
        processRaw raw = some (r.email, r.name))
    ∧ (∀ s : String, parseRecipients (RecipInput.badJson s) =
        firstWinsAux ((splitRunsBy isRecipDelim s).filterMap processRaw) [])
    ∧ (parseRecipients input = [] →
        (generateTemplate tIn input formName disk fileBase newId now mailOk
          store).1 = store
        ∧ ∃ c msg, (generateTemplate tIn input formName disk fileBase newId now
            mailOk store).2 = HttpResp.err c msg ∧ 400 ≤ c ∧ c < 500) := by
  have hbase : ∀ x : String,
      x ∈ ([] : List String) ↔ x ∈ ([] : List Recipient).map Recipient.email := by
    simp
  have h1 : parseRecipients input = firstWinsAux (processedList input) [] := by
    rw [parseRecipients, foldl_dedupInsert_eq (processedList input) [] [] hbase]
    simp
  refine ⟨h1, ?_, ?_, ?_, ?_, ?_, ?_⟩
  · rw [h1, firstWinsAux_map_email]
  · rw [h1, firstWinsAux_map_email]
    exact (firstOccAux_nodup _ []).2
  · calc (parseRecipients input).length
        = ((parseRecipients input).map Recipient.email).length :=
          (List.length_map _ _).symm
      _ = (firstOccAux ((processedList input).map Prod.fst) []).length := by
          rw [h1, firstWinsAux_map_email]
  · intro r hr
    rw [h1] at hr
    have hmem := firstWinsAux_mem _ [] r hr
    rw [processedList, List.mem_filterMap] at hmem
    obtain ⟨raw, hraw, hp⟩ := hmem
    exact ⟨raw, hraw, hp⟩
  · intro s
    have hb : parseRecipients (RecipInput.badJson s) =
        firstWinsAux (processedList (RecipInput.badJson s)) [] := by
      rw [parseRecipients, foldl_dedupInsert_eq _ [] [] hbase]
      simp
    simpa [processedList, rawList] using hb
  · intro hempty
    rcases hsel : selectedOf tIn with - | sel
    · refine ⟨?_, 400, "Select at least one template", ?_, by omega, by omega⟩
      · simp [generateTemplate, hsel]
      · simp [generateTemplate, hsel]
    · by_cases hnil : sel = []
      · refine ⟨?_, 400, "Select at least one template", ?_, by omega, by omega⟩
        · simp [generateTemplate, hsel, hnil]
        · simp [generateTemplate, hsel, hnil]
      · refine ⟨?_, 400, "Provide at least one valid recipient email", ?_,
          by omega, by omega⟩
        · simp [generateTemplate, hsel, hnil, hempty]
        · simp [generateTemplate, hsel, hnil, hempty]

/-- Witness for C5 at an input with no valid recipient: the parse is empty
and the creation request is rejected with a 4xx error without touching the
store. -/
theorem c5_parser_characterization_witness :
    parseRecipients (RecipInput.badJson "not-an-email") = []
    ∧ (generateTemplate (TemplatesInput.badJson "nda")
        (RecipInput.badJson "not-an-email") "N" (fun _ => true) "123" "id5" 0
        (fun _ => true) []).1 = []
    ∧ ∃ c msg, (generateTemplate (TemplatesInput.badJson "nda")
        (RecipInput.badJson "not-an-email") "N" (fun _ => true) "123" "id5" 0
        (fun _ => true) []).2 = HttpResp.err c msg ∧ 400 ≤ c ∧ c < 500 := by
  have h := (c5_parser_characterization (RecipInput.badJson "not-an-email")
    (TemplatesInput.badJson "nda") "N" (fun _ => true) "123" "id5" 0
    (fun _ => true) []).2.2.2.2.2.2 (by decide)
  exact ⟨by decide, h.1, h.2⟩
